import Mathlib

/-!
Verification of the libjustlm bounded-context generation engine
(src/justlm_llama.hpp, src/include/justlm.hpp).

The session state and its operations are embedded shallowly: byte strings
(std::string) are lists of byte values (List Nat), token buffers
(std::vector of int) are lists of integers, and the model backend
(tokenizer, logits, decode, grammar compiler) is passed in as oracle
functions where an operation consults it. Fallible operations return a
pair of an optional error message (mirroring LM_THROW, which fires before
or after exactly the mutations the source performs) and the resulting
session state.
-/

namespace JustLM

/-- Relevant generation parameters from LM::Inference::Params
(src/include/justlm.hpp lines 60-81), restricted to the fields the verified
operations read. Float-valued knobs are modelled as exact rationals. -/
structure Params where
  n_ctx_window_top_bar : Nat
  n_eos_ignores : Nat
  scroll_keep : Rat
deriving DecidableEq

/-- Session state: LLaMAInference::State (src/justlm_llama.hpp lines 11-20)
together with the identity of the heap-allocated state object (the
generic_state pointer, modelled as the numeric field id; each live session
has a distinct one) and the opaque backend execution state (the byte blob
read and written by llama_copy_state_data / llama_set_state_data). The
llama_grammar pointer is an optional abstract handle and the parse_state a
list of abstract rules. n_ctx is the context capacity reported by the
backend at construction. -/
structure State where
  id : Nat
  n_ctx : Nat
  prompt : List Nat
  tokens : List Int
  backend : List Nat
  grammar : Option Nat
  grammar_override_temp : Bool
  parsed_grammar : List (List Nat)
deriving DecidableEq

/-- Number of recent tokens kept by a scroll when scroll_keep > 0. The
source computes unsigned(float(tokens.size() - n_ctx_window_top_bar) * 0.4f)
(src/justlm_llama.hpp line 77) with the constant 0.4f hardcoded; 0.4f
denotes exactly 13421773 / 2^25, so the truncated product is
(13421773 * m) / 33554432. (The intermediate float rounding of the product
never changes the truncated integer for buffer sizes that fit a realistic
context, so the model truncates the exact product.) -/
def keepCount (m : Nat) : Nat := 13421773 * m / 33554432

/-- LLaMAInference::window_scroll (src/justlm_llama.hpp lines 67-91).
Returns whether the buffer was scrolled together with the updated state:
a no-op when the buffer is within capacity; otherwise, for scroll_keep > 0,
the first n_ctx_window_top_bar tokens followed by the last keepCount
tokens; for scroll_keep <= 0, just the first n_ctx_window_top_bar tokens.
The subsequent evaluate_tokens call re-evaluates the retained tokens but
mutates only the opaque backend execution state, which during generation
is supplied by the backend oracle; the token-level state is unaffected. -/
def window_scroll (p : Params) (st : State) : Bool × State :=
  if st.tokens.length ≤ st.n_ctx then (false, st)
  else if 0 < p.scroll_keep then
    let kc := keepCount (st.tokens.length - p.n_ctx_window_top_bar)
    let kept := st.tokens.take p.n_ctx_window_top_bar ++
      st.tokens.drop (st.tokens.length - kc)
    (true, { st with tokens := kept })
  else
    (true, { st with tokens := st.tokens.take p.n_ctx_window_top_bar })

/-- LLaMAInference::append (src/justlm_llama.hpp lines 200-225). The
backend tokenizer is an oracle: tokenize text wasEmpty is the token
sequence written by llama_tokenize, whose add_bos argument is the
was_empty flag computed from the cumulative prompt. The temporary
over-allocation of the token vector before tokenizing is immediately
resized away and is not observable. Evaluation of the new tokens (or of
the whole buffer after a scroll) mutates only the backend execution state
and succeeds in this model. Returns (error, state). -/
def append (p : Params) (tokenize : List Nat → Bool → List Int)
    (text : List Nat) (st : State) : Option String × State :=
  let wasEmpty := st.prompt.isEmpty
  let st1 : State :=
    { st with prompt := st.prompt ++ text, tokens := st.tokens ++ tokenize text wasEmpty }
  (none, (window_scroll p st1).2)

/-- LLaMAInference::get_context_size (src/justlm_llama.hpp lines 293-295):
the current number of tokens in the session buffer. -/
def get_context_size (st : State) : Nat := st.tokens.length

/-- Whether pat occurs as a contiguous substring: models
std::string::find(pat) != npos. -/
def occursIn (pat : List Nat) : List Nat → Bool
  | [] => pat.isEmpty
  | b :: rest => pat.isPrefixOf (b :: rest) || occursIn pat rest

/-- Backend oracles consumed by LLaMAInference::run: the end-of-sequence
token id (llama_token_eos), the token llama_tokenize produces for a
newline, detokenization (llama_token_to_piece), and the two generation
callbacks (a null callback is modelled as the constant true function,
matching the skipped call). -/
structure RunEnv where
  eosTok : Int
  nlTok : Int
  detok : Int → List Nat
  preTick : List Nat → Bool
  onTick : List Nat → Bool

/-- The while loop of LLaMAInference::run (src/justlm_llama.hpp lines
232-282), driven by the ids the sampler returns in order. The loop
condition is checked first; the body then records last_size, consumes one
sampled id (an end-of-sequence id either aborts, when it is the
(n_eos_ignores+1)-th one, or is replaced by pushing the newline token),
scrolls if needed, detokenizes, extends prompt and result, and runs the
callbacks, either of which returning false aborts after this token.
Evaluation of the pushed token touches only backend state. The tail of the
source body shared by the eos-ignored and ordinary paths (push, scroll,
detokenize, extend prompt and result, callbacks) is unfolded into each
branch of the end-of-sequence test here. Yields none if the sampled stream
is exhausted before the loop exits, otherwise
(abort, fres, last_size, state). -/
def runLoop (p : Params) (env : RunEnv) (stop : List Nat) :
    List Int → List Nat → Nat → Nat → State →
      Option (Bool × List Nat × Nat × State)
  | [], fres, lastSize, _, st =>
    if ¬stop.isEmpty ∧ occursIn stop fres then some (false, fres, lastSize, st)
    else none
  | tid :: rest, fres, lastSize, eosCount, st =>
    if ¬stop.isEmpty ∧ occursIn stop fres then some (false, fres, lastSize, st)
    else if tid = env.eosTok then
      if eosCount = p.n_eos_ignores then
        some (true, fres, fres.length, st)
      else
        let st1 := (window_scroll p { st with tokens := st.tokens ++ [env.nlTok] }).2
        let str := env.detok env.nlTok
        let st2 : State := { st1 with prompt := st1.prompt ++ str }
        if env.preTick str = false ∨ env.onTick str = false then
          some (true, fres ++ str, fres.length, st2)
        else runLoop p env stop rest (fres ++ str) fres.length (eosCount + 1) st2
    else
      let st1 := (window_scroll p { st with tokens := st.tokens ++ [tid] }).2
      let str := env.detok tid
      let st2 : State := { st1 with prompt := st1.prompt ++ str }
      if env.preTick str = false ∨ env.onTick str = false then
        some (true, fres ++ str, fres.length, st2)
      else runLoop p env stop rest (fres ++ str) fres.length eosCount st2

/-- LLaMAInference::run (src/justlm_llama.hpp lines 227-291): the loop
followed by the final trim, which fires only when the loop was not
aborted and the accumulated result is strictly longer than the stop
string, and cuts the result back to its length before the final token. -/
def run (p : Params) (env : RunEnv) (stop : List Nat) (stream : List Int)
    (st : State) : Option (List Nat × State) :=
  match runLoop p env stop stream [] 0 0 st with
  | none => none
  | some (abort, fres, lastSize, st') =>
    some (if ¬abort ∧ stop.length < fres.length then fres.take lastSize else fres,
      st')

/-- LM::Inference::Savestate (src/include/justlm.hpp lines 83-92): deep
copies of the backend state blob, tokens and prompt, tagged with the
identity of the session that captured it (the void* ctx field). -/
structure Savestate where
  buf : List Nat
  tokens : List Int
  prompt : List Nat
  ctx : Nat
deriving DecidableEq

/-- LLaMAInference::create_savestate (src/justlm_llama.hpp lines 297-305). -/
def create_savestate (st : State) : Savestate :=
  { buf := st.backend, tokens := st.tokens, prompt := st.prompt, ctx := st.id }

/-- LLaMAInference::restore_savestate (src/justlm_llama.hpp lines
306-314): rejects a savestate whose ctx tag differs from this session's
identity before performing any mutation; otherwise restores the backend
blob, tokens and prompt. -/
def restore_savestate (sv : Savestate) (st : State) : Option String × State :=
  if sv.ctx ≠ st.id then (some "Savestate does not match context", st)
  else (none, { st with backend := sv.buf, tokens := sv.tokens, prompt := sv.prompt })

/-- Little-endian byte image of a 32-bit unsigned value, truncating larger
values exactly as the static_cast to uint32_t in serialize does. -/
def u32le (n : Nat) : List Nat :=
  [n % 256, n / 256 % 256, n / 65536 % 256, n / 16777216 % 256]

/-- Value of four little-endian bytes. -/
def ofLE4 (a b c d : Nat) : Nat := a + 256 * b + 65536 * c + 16777216 * d

/-- Two's-complement reading of a 32-bit pattern as a C int. -/
def toI32 (n : Nat) : Int :=
  if n < 2147483648 then (n : Int) else (n : Int) - 4294967296

/-- In-memory byte image of one token (C int, four bytes little endian). -/
def i32le (t : Int) : List Nat := u32le (t % 4294967296).toNat

/-- Reads a byte buffer back as C ints, four bytes at a time (the
in-memory image of a std::vector of int). -/
def bytesToTokens : List Nat → List Int
  | a :: b :: c :: d :: rest => toI32 (ofLE4 a b c d) :: bytesToTokens rest
  | _ => []

/-- LLaMAInference::serialize (src/justlm_llama.hpp lines 316-341): a
header of four uint32 values (context capacity, token count, prompt byte
length, backend state size) followed by the token bytes, the prompt bytes
and the backend state blob. Stream writes are modelled as always
succeeding (an unbounded sink); the state is not mutated. -/
def serialize (st : State) : List Nat :=
  u32le st.n_ctx ++ (u32le st.tokens.length ++ (u32le st.prompt.length ++
    (u32le st.backend.length ++
      ((st.tokens.map i32le).flatten ++ (st.prompt ++ st.backend)))))

/-- std::vector resize: keeps the prefix, value-initializes (zero) any
growth. -/
def resizeTokens (l : List Int) (n : Nat) : List Int :=
  (l ++ List.replicate (n - l.length) 0).take n

/-- std::string resize: keeps the prefix, zero-fills any growth. -/
def resizeBytes (l : List Nat) (n : Nat) : List Nat :=
  (l ++ List.replicate (n - l.length) 0).take n

/-- LLaMAInference::deserialize (src/justlm_llama.hpp lines 342-373).
Stream reads are modelled exactly: a read of n bytes from a stream holding
fewer copies the available bytes into the destination and fails, so the
token buffer (resized to the announced count before the read, as the
source does) and the prompt can be left partially overwritten by a failed
call. A stream too short for the 16-byte header fails before any session
mutation, since the four sizes are read into locals. -/
def deserialize (s : List Nat) (st : State) : Option String × State :=
  match s with
  | a0 :: a1 :: a2 :: a3 :: b0 :: b1 :: b2 :: b3 ::
      c0 :: c1 :: c2 :: c3 :: d0 :: d1 :: d2 :: d3 :: r0 =>
    let nCtx := ofLE4 a0 a1 a2 a3
    let embd := ofLE4 b0 b1 b2 b3
    let psize := ofLE4 c0 c1 c2 c3
    let ssize := ofLE4 d0 d1 d2 d3
    if st.n_ctx ≠ nCtx then
      (some ("Context length differs (My " ++ toString st.n_ctx ++
        " vs. files " ++ toString nCtx ++ ")"), st)
    else if r0.length < embd * 4 then
      let image := ((resizeTokens st.tokens embd).map i32le).flatten
      let shortToks := bytesToTokens (r0 ++ image.drop r0.length)
      (some "Failed to deserialize tokens", { st with tokens := shortToks })
    else
      let st1 : State := { st with tokens := bytesToTokens (r0.take (embd * 4)) }
      let r1 := r0.drop (embd * 4)
      if r1.length < psize then
        (some "Failed to deserialize prompt",
          { st1 with prompt := r1 ++ (resizeBytes st1.prompt psize).drop r1.length })
      else
        let st2 : State := { st1 with prompt := r1.take psize }
        let r2 := r1.drop psize
        if r2.length < ssize then (some "Failed to deserialize state", st2)
        else (none, { st2 with backend := r2.take ssize })
  | _ => (some "Failed to deserialize data sizes", st)

/-- LLaMAInference::load_grammar (src/justlm_llama.hpp lines 375-392).
grammar_parser::parse and llama_grammar_init are oracles: parse gives the
parsed rule list and ginit the compiled grammar handle (none models a null
return). parsed_grammar is overwritten before the emptiness check, and a
failed init has already nulled the grammar field; tokens, prompt and
backend state are never touched. -/
def load_grammar (parse : List Nat → List (List Nat))
    (ginit : List (List Nat) → Option Nat) (src : List Nat)
    (overrideTemp : Bool) (st : State) : Option String × State :=
  let st1 : State := { st with parsed_grammar := parse src }
  if (parse src).isEmpty then (some "Failed to parse grammar (or no rules)", st1)
  else
    match ginit (parse src) with
    | none => (some "Failed to generate llama grammar", { st1 with grammar := none })
    | some g =>
      (none, { st1 with grammar := some g, grammar_override_temp := overrideTemp })

/-- Probability-shaping strategies reachable in
LLaMAInference::llama_sample_top_p_top_k. -/
inductive SampleStrategy where
  | topKTopP
  | mirostat1
  | mirostat2
  | greedy
deriving DecidableEq

/-- The float threshold 0.01f of the temperature test in
llama_sample_top_p_top_k, as an exact rational. -/
def tempEpsilon : Rat := ⟨1, 100, by omega, Nat.coprime_one_left 100⟩

/-- Strategy selection control flow of
LLaMAInference::llama_sample_top_p_top_k (src/justlm_llama.hpp lines
139-185): the temperature branch is taken only when no
temperature-overriding grammar is active and the temperature lies outside
(-0.01, 0.01); only there is prefer_mirostat consulted, with values other
than 0, 1 and 2 raising an error; every other configuration falls to the
greedy draw. Temperatures are exact rationals. -/
def chooseSampleStrategy (grammarActive overrideTemp : Bool) (temp : Rat)
    (preferMirostat : Int) : Except String SampleStrategy :=
  if (grammarActive && overrideTemp) = false ∧
      (tempEpsilon < temp ∨ temp < -tempEpsilon) then
    if preferMirostat = 0 then .ok .topKTopP
    else if preferMirostat = 1 then .ok .mirostat1
    else if preferMirostat = 2 then .ok .mirostat2
    else .error ("Invalid mirostat version " ++ toString preferMirostat)
  else .ok .greedy

/-! Helper lemmas about scrolling. -/

lemma keepCount_le {c m : Nat} (h : m ≤ 2 * c + 1) : keepCount m ≤ c := by
  unfold keepCount; omega

lemma keepCount_lt {m : Nat} (h : 1 ≤ m) : keepCount m < m := by
  unfold keepCount; omega

lemma window_scroll_of_le (p : Params) (st : State)
    (h : st.tokens.length ≤ st.n_ctx) : window_scroll p st = (false, st) := by
  rw [window_scroll, if_pos h]

lemma window_scroll_n_ctx (p : Params) (st : State) :
    (window_scroll p st).2.n_ctx = st.n_ctx := by
  rw [window_scroll]
  split
  · rfl
  · split <;> rfl

lemma window_scroll_tokens_le (p : Params) (st : State)
    (htb : p.n_ctx_window_top_bar ≤ st.n_ctx)
    (hlen : st.tokens.length ≤ 2 * st.n_ctx - p.n_ctx_window_top_bar + 1) :
    (window_scroll p st).2.tokens.length ≤ st.n_ctx := by
  rw [window_scroll]
  split
  · assumption
  · rename_i hgt
    have h1 : keepCount (st.tokens.length - p.n_ctx_window_top_bar) ≤
        st.n_ctx - p.n_ctx_window_top_bar := keepCount_le (by omega)
    have h2 : keepCount (st.tokens.length - p.n_ctx_window_top_bar) <
        st.tokens.length - p.n_ctx_window_top_bar := keepCount_lt (by omega)
    split
    · simp only [List.length_append, List.length_take, List.length_drop]
      omega
    · simp only [List.length_take]
      omega

lemma window_scroll_shrinks (p : Params) (st : State)
    (htb : p.n_ctx_window_top_bar ≤ st.n_ctx)
    (hgt : st.n_ctx < st.tokens.length) :
    (window_scroll p st).2.tokens.length < st.tokens.length := by
  rw [window_scroll, if_neg (by omega)]
  have h2 : keepCount (st.tokens.length - p.n_ctx_window_top_bar) <
      st.tokens.length - p.n_ctx_window_top_bar := keepCount_lt (by omega)
  split
  · simp only [List.length_append, List.length_take, List.length_drop]
    omega
  · simp only [List.length_take]
    omega

/-! Concrete instances used by the claim C1 theorems. -/

def c1Params : Params :=
  { n_ctx_window_top_bar := 0, n_eos_ignores := 0, scroll_keep := 1 }

def c1State : State :=
  { id := 0, n_ctx := 4, prompt := [], tokens := [], backend := [],
    grammar := none, grammar_override_temp := false, parsed_grammar := [] }

def c1Tokenize : List Nat → Bool → List Int := fun _ _ => (List.range 20).map Int.ofNat

/-- Claim C1 counterexample: the invariant tokens.size() <= contextCapacity
does not hold after every append. With capacity 4, top bar 0 and a positive
scroll_keep, a single append whose text tokenizes to 20 tokens leaves
8 tokens in the buffer after the scroll (window_scroll keeps 40% of the
excess in one pass and never re-checks the bound), so 8 > 4 = n_ctx. -/
theorem claim_C1_counterexample :
    get_context_size (append c1Params c1Tokenize [1] c1State).2 = 8 ∧
    ¬ get_context_size (append c1Params c1Tokenize [1] c1State).2 ≤
        (append c1Params c1Tokenize [1] c1State).2.n_ctx := by
  decide

/-- Claim C1 (amended): tokens.size() <= contextCapacity holds after every
run-generated token (a single pushed token followed by window_scroll) and
after every append whose tokenized text adds at most
contextCapacity - topBarSize tokens to a buffer already within the bound,
given topBarSize <= contextCapacity; a larger single append can exceed the
bound, as the counterexample shows. -/
theorem claim_C1_amended (p : Params) (tokenize : List Nat → Bool → List Int)
    (text : List Nat) (t : Int) (st : State)
    (htb : p.n_ctx_window_top_bar ≤ st.n_ctx)
    (hpre : st.tokens.length ≤ st.n_ctx)
    (hadd : (tokenize text st.prompt.isEmpty).length ≤
      st.n_ctx - p.n_ctx_window_top_bar) :
    get_context_size (append p tokenize text st).2 ≤ st.n_ctx ∧
    get_context_size (window_scroll p { st with tokens := st.tokens ++ [t] }).2 ≤
      st.n_ctx := by
  constructor
  · rw [append, get_context_size]
    exact window_scroll_tokens_le p _ htb
      (by simp only [List.length_append]; omega)
  · rw [get_context_size]
    exact window_scroll_tokens_le p _ htb
      (by simp only [List.length_append, List.length_cons, List.length_nil]; omega)

def c1wParams : Params :=
  { n_ctx_window_top_bar := 0, n_eos_ignores := 0, scroll_keep := 1 }

def c1wState : State :=
  { id := 0, n_ctx := 2, prompt := [], tokens := [], backend := [],
    grammar := none, grammar_override_temp := false, parsed_grammar := [] }

def c1wTokenize : List Nat → Bool → List Int := fun _ _ => [7]

/-- Claim C1 witness: the amended bound at a concrete session. -/
theorem claim_C1_witness :
    get_context_size (append c1wParams c1wTokenize [1] c1wState).2 ≤ c1wState.n_ctx ∧
    get_context_size
        (window_scroll c1wParams { c1wState with tokens := c1wState.tokens ++ [5] }).2 ≤
      c1wState.n_ctx :=
  claim_C1_amended c1wParams c1wTokenize [1] 5 c1wState (by decide) (by decide) (by decide)

/-! Concrete instances used by the claim C2 theorems. -/

def c2Params : Params :=
  { n_ctx_window_top_bar := 2, n_eos_ignores := 0,
    scroll_keep := ⟨1, 2, by omega, Nat.coprime_one_left 2⟩ }

def c2State : State :=
  { id := 0, n_ctx := 8, prompt := [], tokens := [1, 2, 3, 4, 5, 6, 7, 8, 9],
    backend := [], grammar := none, grammar_override_temp := false,
    parsed_grammar := [] }

/-- Claim C2 counterexample: with scrollKeep = 1/2, capacity 8, top bar 2
and 9 tokens, the claim predicts a retained length of
2 + floor((9 - 2) * (1/2)) = 5, but window_scroll retains [1, 2, 8, 9]
(length 4): the source hardcodes the keep fraction 0.4f and uses the
configured scroll_keep only as an on/off gate. -/
theorem claim_C2_counterexample :
    (window_scroll c2Params c2State).2.tokens = [1, 2, 8, 9] ∧
    ((window_scroll c2Params c2State).2.tokens.length : Int) ≠
      (c2Params.n_ctx_window_top_bar : Int) +
        ⌊((c2State.tokens.length : Rat) - (c2Params.n_ctx_window_top_bar : Rat)) *
          c2Params.scroll_keep⌋ := by
  constructor
  · decide
  · have hsk : c2Params.scroll_keep = (1 : Rat) / 2 := by
      show (⟨1, 2, by omega, Nat.coprime_one_left 2⟩ : Rat) = 1 / 2
      rw [Rat.mk'_eq_divInt, Rat.divInt_eq_div]
      norm_num
    have htoks : (window_scroll c2Params c2State).2.tokens = [1, 2, 8, 9] := by decide
    rw [htoks, hsk]
    norm_num [c2Params, c2State]

/-- Claim C2 (amended): window_scroll returns false and leaves the buffer
unchanged when tokens.size() <= contextCapacity; otherwise, for every
configured scrollKeep > 0, it retains the first topBarSize tokens followed
by the last keepCount tokens of the pre-scroll buffer where
keepCount = floor((preScrollLength - topBarSize) * 0.4), 0.4f being the
constant hardcoded in the source (the configured scrollKeep acts only as a
gate), so the retained length is topBarSize + keepCount; for
scrollKeep = 0 it truncates the buffer to exactly the first topBarSize
tokens. -/
theorem claim_C2_amended (p : Params) (st : State)
    (htb : p.n_ctx_window_top_bar ≤ st.n_ctx) :
    (st.tokens.length ≤ st.n_ctx → window_scroll p st = (false, st)) ∧
    (st.n_ctx < st.tokens.length → 0 < p.scroll_keep →
      (window_scroll p st).2.tokens =
        st.tokens.take p.n_ctx_window_top_bar ++
          st.tokens.drop (st.tokens.length -
            keepCount (st.tokens.length - p.n_ctx_window_top_bar)) ∧
      (window_scroll p st).2.tokens.length =
        p.n_ctx_window_top_bar +
          keepCount (st.tokens.length - p.n_ctx_window_top_bar)) ∧
    (st.n_ctx < st.tokens.length → p.scroll_keep = 0 →
      (window_scroll p st).2.tokens = st.tokens.take p.n_ctx_window_top_bar ∧
      (window_scroll p st).2.tokens.length = p.n_ctx_window_top_bar) := by
  refine ⟨fun h => window_scroll_of_le p st h, fun hgt hsk => ?_, fun hgt hsk => ?_⟩
  · rw [window_scroll, if_neg (by omega), if_pos hsk]
    have hkc : keepCount (st.tokens.length - p.n_ctx_window_top_bar) <
        st.tokens.length - p.n_ctx_window_top_bar := keepCount_lt (by omega)
    refine ⟨rfl, ?_⟩
    simp only [List.length_append, List.length_take, List.length_drop]
    omega
  · rw [window_scroll, if_neg (by omega),
      if_neg (by rw [hsk]; exact lt_irrefl 0)]
    refine ⟨rfl, ?_⟩
    simp only [List.length_take]
    omega

def c2wParams : Params :=
  { n_ctx_window_top_bar := 1, n_eos_ignores := 0,
    scroll_keep := ⟨2, 5, by omega, by decide⟩ }

def c2wState : State :=
  { id := 0, n_ctx := 3, prompt := [], tokens := [10, 20, 30, 40, 50],
    backend := [], grammar := none, grammar_override_temp := false,
    parsed_grammar := [] }

/-- Claim C2 witness: the amended scroll shape at a concrete overflowing
session (keepCount 4 = 1, so [10, 20, 30, 40, 50] becomes [10, 50]). -/
theorem claim_C2_witness :
    (window_scroll c2wParams c2wState).2.tokens =
      c2wState.tokens.take c2wParams.n_ctx_window_top_bar ++
        c2wState.tokens.drop (c2wState.tokens.length -
          keepCount (c2wState.tokens.length - c2wParams.n_ctx_window_top_bar)) ∧
    (window_scroll c2wParams c2wState).2.tokens.length =
      c2wParams.n_ctx_window_top_bar +
        keepCount (c2wState.tokens.length - c2wParams.n_ctx_window_top_bar) :=
  (claim_C2_amended c2wParams c2wState (by decide)).2.1 (by decide) (by decide)

/-! Helper lemmas about the generation loop. -/

lemma isEmpty_false_of_ne_nil {l : List Nat} (h : l ≠ []) : l.isEmpty = false := by
  cases l with
  | nil => exact absurd rfl h
  | cons a t => rfl

lemma runLoop_stop_clean (p : Params) (env : RunEnv) (stop : List Nat)
    (hstop : stop ≠ []) :
    ∀ (stream : List Int) (fres : List Nat) (ls ec : Nat) (st : State)
      (fres' : List Nat) (ls' : Nat) (st' : State),
      occursIn stop (fres.take ls) = false → ls ≤ fres.length →
      runLoop p env stop stream fres ls ec st = some (false, fres', ls', st') →
      occursIn stop (fres'.take ls') = false ∧ occursIn stop fres' = true ∧
        ls' ≤ fres'.length := by
  intro stream
  induction stream with
  | nil =>
    intro fres ls ec st fres' ls' st' hinv hle hrun
    rw [runLoop] at hrun
    split at hrun
    · rename_i hcond
      simp only [Option.some.injEq, Prod.mk.injEq] at hrun
      obtain ⟨-, h2, h3, h4⟩ := hrun
      subst h2; subst h3; subst h4
      exact ⟨hinv, hcond.2, hle⟩
    · exact absurd hrun (by simp)
  | cons tid rest ih =>
    intro fres ls ec st fres' ls' st' hinv hle hrun
    simp only [runLoop] at hrun
    split at hrun
    · rename_i hcond
      simp only [Option.some.injEq, Prod.mk.injEq] at hrun
      obtain ⟨-, h2, h3, h4⟩ := hrun
      subst h2; subst h3; subst h4
      exact ⟨hinv, hcond.2, hle⟩
    · rename_i hnc
      have hocc : occursIn stop fres = false := by
        rcases Bool.eq_false_or_eq_true (occursIn stop fres) with h | h
        · exact absurd ⟨by simp [isEmpty_false_of_ne_nil hstop], h⟩ hnc
        · exact h
      have hstart : occursIn stop ((fres ++ env.detok tid).take fres.length) = false ∧
          occursIn stop ((fres ++ env.detok env.nlTok).take fres.length) = false := by
        rw [List.take_left, List.take_left]
        exact ⟨hocc, hocc⟩
      split at hrun
      · split at hrun
        · simp at hrun
        · split at hrun
          · simp at hrun
          · exact ih _ _ _ _ _ _ _ hstart.2 (by simp) hrun
      · split at hrun
        · simp at hrun
        · exact ih _ _ _ _ _ _ _ hstart.1 (by simp) hrun

/-- Claim C3 counterexample: run can return text containing the stop
string. With stopString "x" (byte 120) and a first sampled token whose
text is exactly "x", the loop exits with the accumulated result equal to
the stop string; the final trim requires fres.size() > end.size(), which
fails here, so the stop string is returned verbatim. -/
theorem claim_C3_counterexample :
    Option.map Prod.fst
        (run { n_ctx_window_top_bar := 0, n_eos_ignores := 0, scroll_keep := 0 }
          { eosTok := 99, nlTok := 13, detok := fun _ => [120],
            preTick := fun _ => true, onTick := fun _ => true }
          [120] [7]
          { id := 0, n_ctx := 10, prompt := [], tokens := [], backend := [],
            grammar := none, grammar_override_temp := false, parsed_grammar := [] }) =
      some [120] ∧
    occursIn [120] [120] = true := by
  decide

/-- Claim C3 (amended): when the loop stops because the accumulated text
contains the non-empty stopString (abort flag false, so neither a callback
nor end-of-sequence ended generation) and the accumulated text is strictly
longer than stopString, run returns the accumulation trimmed to its length
before the final token: the returned text contains no occurrence of
stopString and is a strict prefix of the accumulated text. If the
accumulation is not longer than stopString, or the loop aborted, the text
is returned untrimmed and can contain stopString (see the
counterexample). -/
theorem claim_C3_amended (p : Params) (env : RunEnv) (stop : List Nat)
    (stream : List Int) (st st' : State) (fres : List Nat) (ls : Nat)
    (hstop : stop ≠ [])
    (hloop : runLoop p env stop stream [] 0 0 st = some (false, fres, ls, st'))
    (hlen : stop.length < fres.length) :
    run p env stop stream st = some (fres.take ls, st') ∧
    occursIn stop (fres.take ls) = false ∧
    fres.take ls <+: fres ∧ ls < fres.length := by
  obtain ⟨hclean, hocc, hle⟩ :=
    runLoop_stop_clean p env stop hstop stream [] 0 0 st fres ls st'
      (by simp only [List.take_nil, occursIn]; exact isEmpty_false_of_ne_nil hstop)
      (by simp) hloop
  have hlt : ls < fres.length := by
    rcases lt_or_eq_of_le hle with h | h
    · exact h
    · rw [h, List.take_length] at hclean
      rw [hclean] at hocc
      simp at hocc
  refine ⟨?_, hclean, List.take_prefix _ _, hlt⟩
  simp only [run, hloop]
  simp [hlen]

def c3wParams : Params :=
  { n_ctx_window_top_bar := 0, n_eos_ignores := 0, scroll_keep := 0 }

def c3wState : State :=
  { id := 0, n_ctx := 10, prompt := [], tokens := [], backend := [],
    grammar := none, grammar_override_temp := false, parsed_grammar := [] }

def c3wEnv : RunEnv :=
  { eosTok := 99, nlTok := 13, detok := fun t => if t = 2 then [9] else [5],
    preTick := fun _ => true, onTick := fun _ => true }

def c3wFinal : State := { c3wState with tokens := [1, 2], prompt := [5, 9] }

/-- Claim C3 witness: a concrete two-token generation where the second
token completes the stop string; run returns the text trimmed back to the
first token only. -/
theorem claim_C3_witness :
    run c3wParams c3wEnv [9] [1, 2] c3wState =
      some (([5, 9] : List Nat).take 1, c3wFinal) ∧
    occursIn [9] (([5, 9] : List Nat).take 1) = false ∧
    ([5, 9] : List Nat).take 1 <+: [5, 9] ∧ 1 < ([5, 9] : List Nat).length :=
  claim_C3_amended c3wParams c3wEnv [9] [1, 2] c3wState c3wFinal [5, 9] 1
    (by decide) (by decide) (by decide)

lemma runLoop_eos_run (p : Params) (env : RunEnv) (stop : List Nat)
    (hstop : stop ≠ []) (hpre : ∀ s, env.preTick s = true)
    (hon : ∀ s, env.onTick s = true) :
    ∀ (m c : Nat) (fres : List Nat) (ls : Nat) (st : State),
      1 ≤ m → c + m = p.n_eos_ignores + 1 →
      (∀ j, j ≤ m - 1 →
        occursIn stop
          (fres ++ (List.replicate j (env.detok env.nlTok)).flatten) = false) →
      st.tokens.length + (m - 1) ≤ st.n_ctx →
      runLoop p env stop (List.replicate m env.eosTok) fres ls c st =
        some (true, fres ++ (List.replicate (m - 1) (env.detok env.nlTok)).flatten,
          (fres ++ (List.replicate (m - 1) (env.detok env.nlTok)).flatten).length,
          { st with tokens := st.tokens ++ List.replicate (m - 1) env.nlTok,
                    prompt :=
                      st.prompt ++ (List.replicate (m - 1) (env.detok env.nlTok)).flatten }) := by
  intro m
  induction m with
  | zero =>
    intro c fres ls st h1 hsum hocc hfit
    exact absurd h1 (by omega)
  | succ m ih =>
    intro c fres ls st h1 hsum hocc hfit
    have hocc0 : occursIn stop fres = false := by
      have := hocc 0 (by omega)
      simpa using this
    have hempty : stop.isEmpty = false := isEmpty_false_of_ne_nil hstop
    rw [List.replicate_succ]
    by_cases hm : m = 0
    · subst hm
      have hc : c = p.n_eos_ignores := by omega
      simp only [runLoop]
      rw [if_neg (by simp [hempty, hocc0]), if_true, if_pos hc]
      simp
    · obtain ⟨m2, rfl⟩ : ∃ m2, m = m2 + 1 := ⟨m - 1, by omega⟩
      have hc2 : ¬ c = p.n_eos_ignores := by omega
      have hws : window_scroll p { st with tokens := st.tokens ++ [env.nlTok] } =
          (false, { st with tokens := st.tokens ++ [env.nlTok] }) :=
        window_scroll_of_le _ _
          (by simp only [List.length_append, List.length_cons, List.length_nil]; omega)
      have hstep : runLoop p env stop
          (env.eosTok :: List.replicate (m2 + 1) env.eosTok) fres ls c st =
          runLoop p env stop (List.replicate (m2 + 1) env.eosTok)
            (fres ++ env.detok env.nlTok) fres.length (c + 1)
            { st with tokens := st.tokens ++ [env.nlTok],
                      prompt := st.prompt ++ env.detok env.nlTok } := by
        simp only [runLoop]
        rw [if_neg (by simp [hempty, hocc0]), if_true, if_neg hc2, hws]
        rw [if_neg (by simp [hpre, hon])]
      rw [hstep]
      have hrec := ih (c + 1) (fres ++ env.detok env.nlTok) fres.length
        { st with tokens := st.tokens ++ [env.nlTok],
                  prompt := st.prompt ++ env.detok env.nlTok }
        (by omega) (by omega)
        (by
          intro j hj
          have := hocc (j + 1) (by omega)
          simpa [List.replicate_succ, List.append_assoc] using this)
        (by simp only [List.length_append, List.length_cons, List.length_nil]; omega)
      rw [hrec]
      simp [List.replicate_succ, List.append_assoc]

/-- Claim C4: end-of-sequence ids sampled from the backend are ignored
exactly n_eos_ignores times before generation stops. Driving the loop with
a stream of n_eos_ignores + 1 end-of-sequence ids (no stop string hit, no
callback abort, buffer staying within capacity), the loop pushes exactly
one newline token per ignored occurrence — n_eos_ignores newline tokens in
total, the eos id itself never entering the buffer — and the
(n_eos_ignores + 1)-th occurrence terminates generation. -/
theorem claim_C4 (p : Params) (env : RunEnv) (stop : List Nat) (st : State)
    (hstop : stop ≠ [])
    (hpre : ∀ s, env.preTick s = true) (hon : ∀ s, env.onTick s = true)
    (hocc : ∀ j, j ≤ p.n_eos_ignores →
      occursIn stop ((List.replicate j (env.detok env.nlTok)).flatten) = false)
    (hfit : st.tokens.length + p.n_eos_ignores ≤ st.n_ctx) :
    runLoop p env stop (List.replicate (p.n_eos_ignores + 1) env.eosTok) [] 0 0 st =
      some (true, (List.replicate p.n_eos_ignores (env.detok env.nlTok)).flatten,
        ((List.replicate p.n_eos_ignores (env.detok env.nlTok)).flatten).length,
        { st with tokens := st.tokens ++ List.replicate p.n_eos_ignores env.nlTok,
                  prompt :=
                    st.prompt ++ (List.replicate p.n_eos_ignores (env.detok env.nlTok)).flatten }) := by
  have h := runLoop_eos_run p env stop hstop hpre hon (p.n_eos_ignores + 1) 0 [] 0 st
    (by omega) (by omega)
    (by intro j hj; simpa using hocc j (by omega))
    (by simpa using hfit)
  simpa using h

def c4wParams : Params :=
  { n_ctx_window_top_bar := 0, n_eos_ignores := 2, scroll_keep := 0 }

def c4wState : State :=
  { id := 0, n_ctx := 6, prompt := [], tokens := [3], backend := [],
    grammar := none, grammar_override_temp := false, parsed_grammar := [] }

def c4wEnv : RunEnv :=
  { eosTok := 2, nlTok := 13, detok := fun _ => [10],
    preTick := fun _ => true, onTick := fun _ => true }

/-- Claim C4 witness: with n_eos_ignores = 2, three sampled eos ids yield
two injected newline tokens and then termination. -/
theorem claim_C4_witness :
    runLoop c4wParams c4wEnv [77]
        (List.replicate (c4wParams.n_eos_ignores + 1) c4wEnv.eosTok) [] 0 0 c4wState =
      some (true,
        (List.replicate c4wParams.n_eos_ignores (c4wEnv.detok c4wEnv.nlTok)).flatten,
        ((List.replicate c4wParams.n_eos_ignores (c4wEnv.detok c4wEnv.nlTok)).flatten).length,
        { c4wState with
            tokens := c4wState.tokens ++ List.replicate c4wParams.n_eos_ignores c4wEnv.nlTok,
            prompt :=
              c4wState.prompt ++
                (List.replicate c4wParams.n_eos_ignores (c4wEnv.detok c4wEnv.nlTok)).flatten }) :=
  claim_C4 c4wParams c4wEnv [77] c4wState (by decide) (fun _ => rfl) (fun _ => rfl)
    (by
      intro j hj
      have hj2 : j ≤ 2 := by simpa [c4wParams] using hj
      interval_cases j <;> decide)
    (by decide)

/-! Claim C5: append with empty text. -/

def c5Params : Params :=
  { n_ctx_window_top_bar := 0, n_eos_ignores := 0, scroll_keep := 0 }

def c5State : State :=
  { id := 0, n_ctx := 4, prompt := [104], tokens := [3], backend := [],
    grammar := none, grammar_override_temp := false, parsed_grammar := [] }

def c5Tokenize : List Nat → Bool → List Int := fun text _ => text.map fun b => (b : Int)

/-- Claim C5 counterexample: append performs no emptiness check on its
argument. Called with the empty string on a session that already holds a
prompt (so the tokenizer, fed empty input without a BOS request, produces
no tokens), it succeeds — returning no error rather than failing with a
precondition error. The non-empty-prompt requirement is only a comment on
the base-class declaration. -/
theorem claim_C5_counterexample :
    append c5Params c5Tokenize [] c5State = (none, c5State) := by decide

/-- Claim C5 (amended): append with empty text is not rejected: it
succeeds, and whenever the tokenizer maps the empty input to no tokens and
the buffer is within capacity, the session state is left unchanged. The
emptiness precondition is a documented caller obligation, not a checked
one. -/
theorem claim_C5_amended (p : Params) (tokenize : List Nat → Bool → List Int)
    (st : State)
    (htok : tokenize [] st.prompt.isEmpty = [])
    (hlen : st.tokens.length ≤ st.n_ctx) :
    append p tokenize [] st = (none, st) := by
  have hstep : append p tokenize [] st = (none, (window_scroll p st).2) := by
    rw [append]
    simp only [htok, List.append_nil]
  rw [hstep, window_scroll_of_le p st hlen]

def c5wState : State :=
  { id := 0, n_ctx := 8, prompt := [104, 105], tokens := [3, 4], backend := [6],
    grammar := none, grammar_override_temp := false, parsed_grammar := [] }

/-- Claim C5 witness: the amended statement at a concrete session. -/
theorem claim_C5_witness :
    append c5Params c5Tokenize [] c5wState = (none, c5wState) :=
  claim_C5_amended c5Params c5Tokenize c5wState (by decide) (by decide)

/-! Helper lemmas for the serialization codec. -/

lemma ofLE4_u32 {n : Nat} (h : n < 4294967296) :
    ofLE4 (n % 256) (n / 256 % 256) (n / 65536 % 256) (n / 16777216 % 256) = n := by
  unfold ofLE4; omega

lemma toI32_i32 {t : Int} (h1 : -2147483648 ≤ t) (h2 : t < 2147483648) :
    toI32 ((t % 4294967296).toNat) = t := by
  unfold toI32
  split <;> omega

lemma i32le_length (t : Int) : (i32le t).length = 4 := rfl

lemma flatten_map_i32le_length (l : List Int) :
    ((l.map i32le).flatten).length = 4 * l.length := by
  induction l with
  | nil => rfl
  | cons t ts ih =>
    simp only [List.map_cons, List.flatten_cons, List.length_append, ih,
      List.length_cons, i32le_length]
    omega

lemma bytesToTokens_flatten (l : List Int)
    (h : ∀ t ∈ l, -2147483648 ≤ t ∧ t < 2147483648) :
    bytesToTokens ((l.map i32le).flatten) = l := by
  induction l with
  | nil => rfl
  | cons t ts ih =>
    have ht := h t (List.mem_cons_self t ts)
    simp only [List.map_cons, List.flatten_cons, i32le, u32le,
      List.cons_append, List.nil_append]
    rw [bytesToTokens]
    rw [ih fun x hx => h x (List.mem_cons_of_mem t hx)]
    have hm : (t % 4294967296).toNat < 4294967296 := by omega
    rw [ofLE4_u32 hm, toI32_i32 ht.1 ht.2]

/-- Claim C6: serialize followed by deserialize into a session with the
same context capacity succeeds and reproduces the token buffer and the
prompt exactly, and restores the backend state blob byte for byte (the
blob is handed back to llama_set_state_data unchanged). The size
hypotheses reflect the uint32 header fields and the 32-bit token width of
the binary format. -/
theorem claim_C6 (st st2 : State)
    (hctx : st2.n_ctx = st.n_ctx)
    (h1 : st.n_ctx < 4294967296)
    (h2 : st.tokens.length < 4294967296)
    (h3 : st.prompt.length < 4294967296)
    (h4 : st.backend.length < 4294967296)
    (htok : ∀ t ∈ st.tokens, -2147483648 ≤ t ∧ t < 2147483648) :
    deserialize (serialize st) st2 =
      (none,
        { st2 with tokens := st.tokens, prompt := st.prompt, backend := st.backend }) := by
  have hJ : ((st.tokens.map i32le).flatten).length = 4 * st.tokens.length :=
    flatten_map_i32le_length st.tokens
  rw [serialize]
  simp only [u32le, List.cons_append, List.nil_append]
  rw [deserialize]
  rw [ofLE4_u32 h1, ofLE4_u32 h2, ofLE4_u32 h3, ofLE4_u32 h4]
  rw [if_neg (by simp [hctx])]
  rw [if_neg (by
    simp only [List.length_append, hJ]
    omega)]
  rw [List.take_left' (by omega : ((st.tokens.map i32le).flatten).length =
    st.tokens.length * 4)]
  rw [bytesToTokens_flatten st.tokens htok]
  rw [List.drop_left' (by omega : ((st.tokens.map i32le).flatten).length =
    st.tokens.length * 4)]
  rw [if_neg (by simp only [List.length_append]; omega)]
  rw [List.take_left]
  rw [List.drop_left]
  rw [if_neg (by omega)]
  rw [List.take_length]

def c6State : State :=
  { id := 1, n_ctx := 3, prompt := [104, 105], tokens := [5, -3],
    backend := [9, 8, 7], grammar := none, grammar_override_temp := false,
    parsed_grammar := [] }

def c6Target : State :=
  { id := 2, n_ctx := 3, prompt := [], tokens := [1], backend := [],
    grammar := some 4, grammar_override_temp := true, parsed_grammar := [[1]] }

/-- Claim C6 witness: a concrete round trip, including a negative token id
(exercising the 32-bit two's-complement token encoding). -/
theorem claim_C6_witness :
    deserialize (serialize c6State) c6Target =
      (none,
        { c6Target with tokens := c6State.tokens, prompt := c6State.prompt, backend := c6State.backend }) :=
  claim_C6 c6State c6Target (by decide) (by decide) (by decide) (by decide)
    (by decide) (by decide)

/-- Claim C7: restoring a savestate captured from a different session
instance (its ctx identity tag differing from the target session's
generic_state identity) fails with the context-mismatch error, and the
identity test precedes every mutation, so the target session's tokens,
prompt and backend state are returned unmodified. -/
theorem claim_C7 (stA stB : State) (hid : stA.id ≠ stB.id) :
    restore_savestate (create_savestate stA) stB =
      (some "Savestate does not match context", stB) := by
  simp [restore_savestate, create_savestate, hid]

def c7Source : State :=
  { id := 1, n_ctx := 4, prompt := [104], tokens := [3], backend := [9],
    grammar := none, grammar_override_temp := false, parsed_grammar := [] }

def c7Target : State :=
  { id := 2, n_ctx := 4, prompt := [105], tokens := [4], backend := [8],
    grammar := none, grammar_override_temp := false, parsed_grammar := [] }

/-- Claim C7 witness: a concrete cross-session restore rejection. -/
theorem claim_C7_witness :
    restore_savestate (create_savestate c7Source) c7Target =
      (some "Savestate does not match context", c7Target) :=
  claim_C7 c7Source c7Target (by decide)

/-! Claim C8: atomicity of failing operations. -/

def c8State : State :=
  { id := 0, n_ctx := 2, prompt := [], tokens := [5, 6], backend := [],
    grammar := none, grammar_override_temp := false, parsed_grammar := [] }

def c8Stream : List Nat := u32le 2 ++ (u32le 1 ++ (u32le 0 ++ u32le 0))

/-- Claim C8 counterexample: deserialize is not atomic on failure. A
16-byte stream announcing a matching context capacity and one token but
carrying no token bytes makes deserialize fail after it has already
resized the session's token buffer from [5, 6] down to [5]: the post-call
buffer is neither the pre-call value nor any fully-applied result. -/
theorem claim_C8_counterexample :
    (deserialize c8Stream c8State).1 = some "Failed to deserialize tokens" ∧
    (deserialize c8Stream c8State).2.tokens = [5] ∧
    c8State.tokens = [5, 6] ∧
    (deserialize c8Stream c8State).2.tokens ≠ c8State.tokens := by decide

/-- Claim C8 (amended): restore_savestate fails atomically (the identity
check precedes all mutation), deserialize leaves the session untouched
when it fails while reading the 16-byte size header, and load_grammar
never touches tokens, prompt or backend state whatever its outcome; but
deserialize failures after the header can leave the token buffer (and
prompt) in an intermediate, partially-overwritten state, as the
counterexample shows. -/
theorem claim_C8_amended :
    (∀ (sv : Savestate) (st : State), sv.ctx ≠ st.id →
      (restore_savestate sv st).1.isSome = true ∧ (restore_savestate sv st).2 = st) ∧
    (∀ (s : List Nat) (st : State), s.length < 16 →
      (deserialize s st).1.isSome = true ∧ (deserialize s st).2 = st) ∧
    (∀ (parse : List Nat → List (List Nat)) (ginit : List (List Nat) → Option Nat)
        (src : List Nat) (ov : Bool) (st : State),
      (load_grammar parse ginit src ov st).2.tokens = st.tokens ∧
      (load_grammar parse ginit src ov st).2.prompt = st.prompt ∧
      (load_grammar parse ginit src ov st).2.backend = st.backend) := by
  refine ⟨?_, ?_, ?_⟩
  · intro sv st h
    simp [restore_savestate, h]
  · intro s st h
    rcases s with - | ⟨a0, - | ⟨a1, - | ⟨a2, - | ⟨a3, - | ⟨a4, - | ⟨a5, - | ⟨a6,
      - | ⟨a7, - | ⟨a8, - | ⟨a9, - | ⟨a10, - | ⟨a11, - | ⟨a12, - | ⟨a13, - | ⟨a14,
      - | ⟨a15, s⟩⟩⟩⟩⟩⟩⟩⟩⟩⟩⟩⟩⟩⟩⟩⟩
    all_goals first
      | exact ⟨rfl, rfl⟩
      | (simp only [List.length_cons] at h; omega)
  · intro parse ginit src ov st
    rw [load_grammar]
    split
    · exact ⟨rfl, rfl, rfl⟩
    · split <;> exact ⟨rfl, rfl, rfl⟩

def c8wSv : Savestate := { buf := [1], tokens := [2], prompt := [3], ctx := 5 }

def c8wState : State :=
  { id := 6, n_ctx := 2, prompt := [7], tokens := [8], backend := [9],
    grammar := none, grammar_override_temp := false, parsed_grammar := [] }

/-- Claim C8 witness: the amended atomicity statements at concrete
inputs. -/
theorem claim_C8_witness :
    ((restore_savestate c8wSv c8wState).1.isSome = true ∧
      (restore_savestate c8wSv c8wState).2 = c8wState) ∧
    ((deserialize [1, 2, 3] c8wState).1.isSome = true ∧
      (deserialize [1, 2, 3] c8wState).2 = c8wState) ∧
    ((load_grammar (fun _ => []) (fun _ => none) [4] true c8wState).2.tokens =
        c8wState.tokens ∧
      (load_grammar (fun _ => []) (fun _ => none) [4] true c8wState).2.prompt =
        c8wState.prompt ∧
      (load_grammar (fun _ => []) (fun _ => none) [4] true c8wState).2.backend =
        c8wState.backend) :=
  ⟨claim_C8_amended.1 c8wSv c8wState (by decide),
    claim_C8_amended.2.1 [1, 2, 3] c8wState (by decide),
    claim_C8_amended.2.2 (fun _ => []) (fun _ => none) [4] true c8wState⟩

/-! Claim C9: invalid sampling strategy values. -/

/-- Claim C9 counterexample: an out-of-range preferredStrategy does not
always raise an error. With no grammar and temperature 0 the sampler
never consults prefer_mirostat and draws greedily, so prefer_mirostat = 3
(outside 0, 1, 2) samples a token without any configuration error. -/
theorem claim_C9_counterexample :
    chooseSampleStrategy false false 0 3 = .ok .greedy ∧
    (3 : Int) ≠ 0 ∧ (3 : Int) ≠ 1 ∧ (3 : Int) ≠ 2 :=
  ⟨rfl, by decide, by decide, by decide⟩

/-- Claim C9 (amended): whenever the temperature branch is taken — no
temperature-overriding grammar is active and the temperature lies outside
(-0.01, 0.01) — a prefer_mirostat value other than 0, 1 or 2 raises the
fatal configuration error rather than silently selecting a strategy; with
near-zero temperature or a temperature-overriding grammar the strategy
field is never consulted and sampling is greedy (see the
counterexample). -/
theorem claim_C9_amended (g o : Bool) (temp : Rat) (pm : Int)
    (hg : (g && o) = false)
    (htemp : tempEpsilon < temp ∨ temp < -tempEpsilon)
    (hpm0 : pm ≠ 0) (hpm1 : pm ≠ 1) (hpm2 : pm ≠ 2) :
    chooseSampleStrategy g o temp pm =
      .error ("Invalid mirostat version " ++ toString pm) := by
  rw [chooseSampleStrategy, if_pos ⟨hg, htemp⟩, if_neg hpm0, if_neg hpm1,
    if_neg hpm2]

/-- Claim C9 witness: the amended statement at temperature 1 and
prefer_mirostat 3. -/
theorem claim_C9_witness :
    chooseSampleStrategy false false 1 3 =
      .error ("Invalid mirostat version " ++ toString (3 : Int)) :=
  claim_C9_amended false false 1 3 (by decide) (Or.inl (by decide))
    (by decide) (by decide) (by decide)

/-! Claim C10: get_context_size tracks the token buffer, not the
capacity. -/

/-- Claim C10: get_context_size returns the current number of tokens in
the session buffer, not the configured capacity: it equals tokens.length,
grows by the number of newly tokenized ids on a non-scrolling append,
grows by one when a generated token is pushed within capacity, shrinks
whenever scrolling truncates an overflowing buffer, while n_ctx itself is
left unchanged by append and by scrolling. -/
theorem claim_C10 (p : Params) (tokenize : List Nat → Bool → List Int)
    (text : List Nat) (st : State) :
    get_context_size st = st.tokens.length ∧
    (st.tokens.length + (tokenize text st.prompt.isEmpty).length ≤ st.n_ctx →
      get_context_size (append p tokenize text st).2 =
        get_context_size st + (tokenize text st.prompt.isEmpty).length) ∧
    (∀ (st' : State) (t : Int), st'.tokens.length < st'.n_ctx →
      get_context_size (window_scroll p { st' with tokens := st'.tokens ++ [t] }).2 =
        get_context_size st' + 1) ∧
    (∀ st' : State, p.n_ctx_window_top_bar ≤ st'.n_ctx →
      st'.n_ctx < st'.tokens.length →
      get_context_size (window_scroll p st').2 < get_context_size st') ∧
    (append p tokenize text st).2.n_ctx = st.n_ctx ∧
    (∀ st' : State, (window_scroll p st').2.n_ctx = st'.n_ctx) := by
  refine ⟨rfl, ?_, ?_, ?_, ?_, fun st' => window_scroll_n_ctx p st'⟩
  · intro h
    have hws := window_scroll_of_le p
      { st with prompt := st.prompt ++ text,
                tokens := st.tokens ++ tokenize text st.prompt.isEmpty }
      (by simpa [List.length_append] using h)
    simp only [append, get_context_size]
    rw [hws]
    simp [List.length_append]
  · intro st' t h
    have hws := window_scroll_of_le p { st' with tokens := st'.tokens ++ [t] }
      (by simp only [List.length_append, List.length_cons, List.length_nil]; omega)
    simp only [get_context_size]
    rw [hws]
    simp
  · intro st' h1 h2
    exact window_scroll_shrinks p st' h1 h2
  · simp only [append]
    exact window_scroll_n_ctx p _

def c10Params : Params :=
  { n_ctx_window_top_bar := 1, n_eos_ignores := 0, scroll_keep := 1 }

def c10State : State :=
  { id := 0, n_ctx := 4, prompt := [], tokens := [7], backend := [],
    grammar := none, grammar_override_temp := false, parsed_grammar := [] }

def c10Big : State :=
  { id := 0, n_ctx := 3, prompt := [], tokens := [1, 2, 3, 4, 5], backend := [],
    grammar := none, grammar_override_temp := false, parsed_grammar := [] }

def c10Tok : List Nat → Bool → List Int := fun _ _ => [8, 9]

/-- Claim C10 witness: the buffer-size behaviour at concrete sessions. -/
theorem claim_C10_witness :
    get_context_size c10State = c10State.tokens.length ∧
    get_context_size (append c10Params c10Tok [1] c10State).2 =
      get_context_size c10State + (c10Tok [1] c10State.prompt.isEmpty).length ∧
    get_context_size
        (window_scroll c10Params { c10State with tokens := c10State.tokens ++ [5] }).2 =
      get_context_size c10State + 1 ∧
    get_context_size (window_scroll c10Params c10Big).2 < get_context_size c10Big ∧
    (append c10Params c10Tok [1] c10State).2.n_ctx = c10State.n_ctx ∧
    (window_scroll c10Params c10Big).2.n_ctx = c10Big.n_ctx := by
  obtain ⟨h1, h2, h3, h4, h5, h6⟩ := claim_C10 c10Params c10Tok [1] c10State
  exact ⟨h1, h2 (by decide), h3 c10State 5 (by decide),
    h4 c10Big (by decide) (by decide), h5, h6 c10Big⟩

end JustLM
